import Mathlib

/-!
Shallow embedding of the Google Ads copy-generator pipeline
(`utils.py`, `generator.py`, `scraper.py`).

Python strings are modelled as `List Char` (ASCII fragment: the regexes
`\w`/`\s` of the source are modelled over their ASCII meaning, which is
what every input in the repository exercises). Python `len` is
`List.length`, slicing `s[:n]` is `List.take n`, substring tests
(`in`) are `isSubstring`, and `str.lower()` is a character-wise
ASCII lowercase map.
-/

namespace AdsCopy

/-- ASCII model of Python's `\s` / `str.strip()` whitespace class. -/
def isPySpace (c : Char) : Bool :=
  c == ' ' || c == '\t' || c == '\n' || c == '\r' || c == '\x0b' || c == '\x0c'

/-- ASCII model of Python's `str.lower()`, applied character-wise. -/
def asciiLower (c : Char) : Char :=
  if 65 ≤ c.toNat ∧ c.toNat ≤ 90 then Char.ofNat (c.toNat + 32) else c

/-- `s.lower()` on a whole string. -/
def pyLower (s : List Char) : List Char := s.map asciiLower

/-- `s.strip()`: drop whitespace from both ends. -/
def pyStrip (s : List Char) : List Char :=
  ((s.dropWhile isPySpace).reverse.dropWhile isPySpace).reverse

/-- `s.rsplit(' ', 1)[0]`: everything before the last space, or `s`
itself when `s` holds no space. -/
def rsplitHead (s : List Char) : List Char :=
  if ' ' ∈ s then ((s.reverse.dropWhile (fun c => c ≠ ' ')).tail).reverse else s

/-- `utils.truncate_for_google_ads` (utils.py lines 104-125), translated
clause by clause.  The final `if` mirrors the source's
`if len(truncated) > max_length` branch; as proved below it is dead code,
because `truncated` is always a sub-sequence of `text[:max_length]`. -/
def truncate_for_google_ads (text : List Char) (max_length : Nat) : List Char :=
  if text.length ≤ max_length then text
  else if max_length < (rsplitHead (text.take max_length)).length then
    text.take (max_length - 3) ++ ('.' :: '.' :: '.' :: [])
  else rsplitHead (text.take max_length)

/-- Whitespace collapsing of `re.sub(r"\s+", " ", ·)`: each maximal
whitespace run becomes one `' '` (the Boolean argument records whether the
previous character was whitespace). -/
def collapseWs : Bool → List Char → List Char
  | _, [] => []
  | lastSp, c :: cs =>
    if isPySpace c then
      if lastSp then collapseWs true cs else ' ' :: collapseWs true cs
    else c :: collapseWs false cs

/-- ASCII model of Python's `\w` (word character): alphanumeric or `_`. -/
def isWordChar (c : Char) : Bool := c.isAlphanum || c == '_'

/-- Allow-list of `re.sub(r"[^\w\s\.\,\!\?\-\:\;]", "", ·)` in
`clean_text`: a character is kept iff it matches the class. -/
def keepChar (c : Char) : Bool :=
  isWordChar c || isPySpace c || ['.', ',', '!', '?', '-', ':', ';'].contains c

/-- The `cleaned` local of `clean_text` after the two `re.sub` calls
(utils.py lines 52-55): strip, collapse whitespace, drop disallowed
characters. -/
def cleaned_text (text : List Char) : List Char :=
  (collapseWs false (pyStrip text)).filter keepChar

/-- `utils.clean_text` (utils.py lines 37-61): strip, collapse whitespace,
strip disallowed characters, then cut to `max_length` at a word boundary
and append `"..."` when the cut happened. -/
def clean_text (text : List Char) (max_length : Nat) : List Char :=
  if text = [] then []
  else if max_length < (cleaned_text text).length then
    rsplitHead ((cleaned_text text).take max_length) ++ ('.' :: '.' :: '.' :: [])
  else cleaned_text text

/-- The normalization-and-cap step of `scraper._extract_body_text`
(scraper.py line 190): the extracted text is passed to `clean_text` with
`max_length = 500`.  The DOM navigation before it is I/O and does not
affect the length bound the spec states. -/
def body_excerpt (raw : List Char) : List Char := clean_text raw 500

/-! ## Keyword extraction (`utils.extract_keywords`, utils.py lines 64-101) -/

/-- `re.findall(r"\b\w+\b", ·)`: the maximal runs of word characters, in
order.  `cur` accumulates the current run reversed. -/
def findWords (cur : List Char) : List Char → List (List Char)
  | [] => if cur = [] then [] else [cur.reverse]
  | c :: cs =>
    if isWordChar c then findWords (c :: cur) cs
    else if cur = [] then findWords [] cs
    else cur.reverse :: findWords [] cs

/-- The stop-word set of utils.py lines 82-89 (the source's set literal
spells `'her'` twice; as a set it holds it once). -/
def stop_words : List (List Char) :=
  [("the"), ("a"), ("an"), ("and"), ("or"), ("but"), ("in"), ("on"), ("at"),
   ("to"), ("for"), ("of"), ("with"), ("by"), ("is"), ("are"), ("was"),
   ("were"), ("be"), ("been"), ("being"), ("have"), ("has"), ("had"), ("do"),
   ("does"), ("did"), ("will"), ("would"), ("could"), ("should"), ("may"),
   ("might"), ("can"), ("this"), ("that"), ("these"), ("those"), ("i"),
   ("you"), ("he"), ("she"), ("it"), ("we"), ("they"), ("me"), ("him"),
   ("her"), ("us"), ("them"), ("my"), ("your"), ("his"), ("its"), ("our"),
   ("their")].map (fun s => s.data)

/-- The token filter of utils.py line 92: not a stop word and longer than
2 characters. -/
def keywordToken (w : List Char) : Bool :=
  !(stop_words.contains w) && decide (2 < w.length)

/-- One `word_count[word] = word_count.get(word, 0) + 1` step on the
insertion-ordered association list modelling the Python dict. -/
def word_count_bump (w : List Char) :
    List (List Char × Nat) → List (List Char × Nat)
  | [] => [(w, 1)]
  | (a, n) :: rest =>
    if a = w then (a, n + 1) :: rest else (a, n) :: word_count_bump w rest

/-- The frequency dict of utils.py lines 95-97: keys in first-occurrence
order (CPython dicts preserve insertion order). -/
def word_count (ws : List (List Char)) : List (List Char × Nat) :=
  ws.foldl (fun m w => word_count_bump w m) []

/-- The order realised by CPython's stable
`sorted(items, key = count, reverse = True)` on the enumerated dict items:
count strictly greater first, equal counts kept in dict (= first
occurrence) order. -/
def countOrder (a b : Nat × (List Char × Nat)) : Prop :=
  b.2.2 < a.2.2 ∨ (a.2.2 = b.2.2 ∧ a.1 ≤ b.1)

instance : DecidableRel countOrder := fun a b => by
  unfold countOrder; infer_instance

instance : IsTotal (Nat × (List Char × Nat)) countOrder where
  total a b := by
    unfold countOrder
    rcases Nat.lt_trichotomy a.2.2 b.2.2 with h | h | h
    · exact Or.inr (Or.inl h)
    · rcases Nat.le_total a.1 b.1 with h' | h'
      · exact Or.inl (Or.inr ⟨h, h'⟩)
      · exact Or.inr (Or.inr ⟨h.symm, h'⟩)
    · exact Or.inl (Or.inl h)

instance : IsTrans (Nat × (List Char × Nat)) countOrder where
  trans a b c hab hbc := by
    unfold countOrder at *
    rcases hab with h1 | ⟨e1, i1⟩
    · rcases hbc with h2 | ⟨e2, _⟩
      · exact Or.inl (Nat.lt_trans h2 h1)
      · exact Or.inl (e2 ▸ h1)
    · rcases hbc with h2 | ⟨e2, i2⟩
      · exact Or.inl (e1 ▸ h2)
      · exact Or.inr ⟨e1.trans e2, Nat.le_trans i1 i2⟩

/-- The `keywords` local of utils.py lines 79-92: the word tokens of the
lower-cased text that pass the stop-word/length filter. -/
def tokensOf (text : List Char) : List (List Char) :=
  (findWords [] (pyLower text)).filter keywordToken

/-- The index of the first occurrence of `w` in a token list (the
first-occurrence order used to state the tie-break of the frequency
sort). -/
def firstIdx (w : List Char) : List (List Char) → Nat
  | [] => 0
  | x :: xs => if x = w then 0 else firstIdx w xs + 1

/-- `utils.extract_keywords` (utils.py lines 64-101): tokenize the
lower-cased text, drop stop words and short words, count frequencies,
sort descending by frequency (stable, hence ties in first-occurrence
order) and keep the first `max_keywords` words. -/
def extract_keywords (text : List Char) (max_keywords : Nat) : List (List Char) :=
  if text = [] then []
  else
    (((List.insertionSort countOrder (word_count (tokensOf text)).enum).take
      max_keywords).map (fun e => e.2.1))

/-! ## The copy generator (`generator.CopyGenerator`, generator.py) -/

/-- The dict holding one ad variant.  Fields are optional because the
parser of `_parse_openai_response` builds the dict key by key and
`validate_ads` checks for missing keys. -/
structure AdDict where
  headline1 : Option (List Char)
  headline2 : Option (List Char)
  description : Option (List Char)
deriving DecidableEq, Repr

def emptyAd : AdDict := ⟨none, none, none⟩

/-- `len(current_ad) == 3`: all three keys present. -/
def ad_complete (a : AdDict) : Bool :=
  a.headline1.isSome && a.headline2.isSome && a.description.isSome

/-- A sampled `(headline1, headline2, description)` triple. -/
abbrev Combo := List Char × List Char × List Char

/-- `random.choice(l)`, with the ambient random state injected as the
oracle `pick`: call number `k` selects index `pick k % l.length`. -/
def pyChoice (pick : Nat → Nat) (k : Nat) (l : List (List Char)) : List Char :=
  l.getD (pick k % l.length) []

/-- The headline template pool of generator.py lines 216-225. -/
def headline_templates (keyword : List Char) : List (List Char) :=
  [("Best ").data ++ keyword ++ (" Deals").data,
   ("Top ").data ++ keyword ++ (" Options").data,
   ("Quality ").data ++ keyword ++ (" Here").data,
   ("Find Your ").data ++ keyword,
   ("Premium ").data ++ keyword ++ (" Now").data,
   ("Save on ").data ++ keyword,
   ("Expert ").data ++ keyword ++ (" Guide").data,
   ("Trusted ").data ++ keyword ++ (" Source").data]

/-- The secondary-headline pool of generator.py lines 243-252. -/
def headline2_options : List (List Char) :=
  [("Free Shipping").data, ("Best Prices").data, ("Expert Support").data,
   ("Quality Guaranteed").data, ("Fast Delivery").data,
   ("Save Big Today").data, ("Limited Time").data, ("Trusted Source").data]

/-- The description template pool of generator.py lines 227-233. -/
def description_templates (keyword : List Char) : List (List Char) :=
  [("Get the best ").data ++ keyword ++ (" deals. Fast shipping & expert support. Shop now!").data,
   ("Find quality ").data ++ keyword ++ (" options. Compare prices & save big today!").data,
   ("Premium ").data ++ keyword ++ (" selection. Free shipping & 30-day returns. Buy now!").data,
   ("Expert ").data ++ keyword ++ (" advice. Best prices guaranteed. Limited time offer!").data,
   ("Trusted ").data ++ keyword ++ (" source. Fast delivery & customer satisfaction. Order today!").data]

/-- Python's substring test `needle in hay`. -/
def isSubstring (needle : List Char) : List Char → Bool
  | [] => needle.isEmpty
  | c :: cs => needle.isPrefixOf (c :: cs) || isSubstring needle cs

/-- One iteration's three `random.choice` calls (generator.py
lines 242-253), consuming oracle calls `ctr`, `ctr+1`, `ctr+2`. -/
def mkCombo (keyword : List Char) (pick : Nat → Nat) (ctr : Nat) : Combo :=
  (pyChoice pick ctr (headline_templates keyword),
   pyChoice pick (ctr + 1) headline2_options,
   pyChoice pick (ctr + 2) (description_templates keyword))

/-- The bounded-retry sampling loop of generator.py lines 240-259
(`while attempts < 20`), with the remaining iteration count as fuel
(always entered with fuel 20; the fuel-0 case is unreachable).  A fresh
combination is recorded in `used` and returned; after the 20th stale
draw the loop exits with that draw, recording nothing. -/
def sample_combination (keyword : List Char) (pick : Nat → Nat) :
    Nat → Nat → List Combo → Combo × Nat × List Combo
  | 0, ctr, used => (([], [], []), ctr, used)
  | fuel + 1, ctr, used =>
    let c := mkCombo keyword pick ctr
    if c ∈ used then
      if fuel = 0 then (c, ctr + 3, used)
      else sample_combination keyword pick fuel (ctr + 3) used
    else (c, ctr + 3, c :: used)

/-- One loop body of generator.py lines 238-269: sample a combination,
force-substitute the keyword-guaranteed headline when the keyword is
missing from the sampled primary headline (case-insensitively,
lines 261-263), then truncate every field to its limit (lines 265-269). -/
def template_variant (keyword : List Char) (pick : Nat → Nat)
    (ctr : Nat) (used : List Combo) : AdDict × Nat × List Combo :=
  let r := sample_combination keyword pick 20 ctr used
  let h1 := if isSubstring (pyLower keyword) (pyLower r.1.1) then r.1.1
            else ("Best ").data ++ keyword ++ (" Deals").data
  (⟨some (truncate_for_google_ads h1 30),
    some (truncate_for_google_ads r.1.2.1 30),
    some (truncate_for_google_ads r.1.2.2 90)⟩, r.2)

/-- The `for i in range(num_variants)` loop of generator.py
lines 238-269, threading the oracle counter and the `used_combinations`
set. -/
def templates_loop (keyword : List Char) (pick : Nat → Nat) :
    Nat → Nat → List Combo → List AdDict
  | 0, _, _ => []
  | n + 1, ctr, used =>
    let r := template_variant keyword pick ctr used
    r.1 :: templates_loop keyword pick n r.2.1 r.2.2

/-- `CopyGenerator._generate_with_templates` (generator.py
lines 194-271).  `content_summary` and `persona` are parameters of the
source function but never influence its output: the locals
`content_words`/`value_words` computed from `content_summary`
(lines 212-213) are dead, and `persona` is never read. -/
def _generate_with_templates (content_summary persona keyword : List Char)
    (num_variants : Nat) (pick : Nat → Nat) : List AdDict :=
  templates_loop keyword pick num_variants 0 []

/-- `line.split(':', 1)[1].strip()` (reached only when `':' ∈ line`). -/
def after_colon (line : List Char) : List Char :=
  pyStrip ((line.dropWhile (fun c => c ≠ ':')).tail)

/-- One line of the response parser (generator.py lines 161-182),
acting on the state `(current_ad, ads)`.  On an `Ad N:` marker the
current dict is flushed only when complete (and only then reset); field
lines overwrite the corresponding key with the truncated value. -/
def parse_line (st : AdDict × List AdDict) (rawLine : List Char) :
    AdDict × List AdDict :=
  let line := pyStrip rawLine
  if line = [] then st
  else if (("ad ").data).isPrefixOf (pyLower line) && line.contains ':' then
    if ad_complete st.1 then (emptyAd, st.2 ++ [st.1]) else st
  else if isSubstring (("headline 1:").data) (pyLower line) then
    ({ st.1 with headline1 := some (truncate_for_google_ads (after_colon line) 30) }, st.2)
  else if isSubstring (("headline 2:").data) (pyLower line) then
    ({ st.1 with headline2 := some (truncate_for_google_ads (after_colon line) 30) }, st.2)
  else if isSubstring (("description:").data) (pyLower line) then
    ({ st.1 with description := some (truncate_for_google_ads (after_colon line) 90) }, st.2)
  else st

/-- The complete records accumulated by `_parse_openai_response`
(generator.py lines 155-186), before the count check. -/
def parsed_ads (response_text : List Char) : List AdDict :=
  let st := (response_text.splitOn '\n').foldl parse_line (emptyAd, [])
  if ad_complete st.1 then st.2 ++ [st.1] else st.2

/-- `CopyGenerator._parse_openai_response` (generator.py lines 144-192):
parse; when fewer complete records than `expected_variants` were found,
fall back to the template path called with empty content summary,
persona and keyword (line 190); otherwise return the first
`expected_variants` records. -/
def _parse_openai_response (response_text : List Char)
    (expected_variants : Nat) (pick : Nat → Nat) : List AdDict :=
  let ads := parsed_ads response_text
  if ads.length < expected_variants then
    _generate_with_templates [] [] [] expected_variants pick
  else ads.take expected_variants

/-- `CopyGenerator.generate_ads` (generator.py lines 31-51) together
with `_generate_with_openai` (lines 53-89).  The network call is
injected as `backend_response`: `some txt` models the chat completion
returning `txt` (line 84), `none` models the call raising, which the
`except` clause turns into the template path with the original arguments
(lines 87-89).  No credential (`api_key = none`) goes straight to the
template path (line 51). -/
def generate_ads (api_key : Option (List Char))
    (backend_response : Option (List Char))
    (content_summary persona keyword : List Char)
    (num_variants : Nat) (pick : Nat → Nat) : List AdDict :=
  match api_key with
  | some _ =>
    match backend_response with
    | some txt => _parse_openai_response txt num_variants pick
    | none => _generate_with_templates content_summary persona keyword num_variants pick
  | none => _generate_with_templates content_summary persona keyword num_variants pick

/-- `CopyGenerator.validate_ads` (generator.py lines 273-296): keep a
record iff all three keys exist and the three length limits hold. -/
def validate_ads (ads : List AdDict) : List AdDict :=
  ads.filter (fun ad =>
    ad.headline1.isSome && ad.headline2.isSome && ad.description.isSome &&
    decide ((ad.headline1.getD []).length ≤ 30) &&
    decide ((ad.headline2.getD []).length ≤ 30) &&
    decide ((ad.description.getD []).length ≤ 90))

/-- The Google Ads length budgets on one record: every present field is
within its limit (30 / 30 / 90 characters). -/
def within_google_limits (a : AdDict) : Prop :=
  (∀ s, a.headline1 = some s → s.length ≤ 30) ∧
  (∀ s, a.headline2 = some s → s.length ≤ 30) ∧
  (∀ s, a.description = some s → s.length ≤ 90)

/-! ## Scraped content and the application-level entry point -/

/-- The dict returned by `scraper.WebScraper.scrape_url` (scraper.py
lines 62-81): on success the extracted fields, on failure
`success = False` with an `error` message. -/
structure ScrapedContent where
  success : Bool
  title : List Char
  meta_description : List Char
  summary : List Char
  error : Option (List Char)

/-- The failure value built by `scrape_url`'s `except
requests.RequestException` clause (scraper.py lines 72-76). -/
def scrape_failure (msg : List Char) : ScrapedContent :=
  ⟨false, [], [], [], some ((("Failed to scrape URL: ").data) ++ msg)⟩

/-- Modelled from the spec: the module-level `generate_copy` entry point
(`generate_ads` as imported by `app.py` from `generator`) is not present
under `src/` — `src/generator.py` only defines the `CopyGenerator`
class, whose `generate_ads` method takes a plain string summary.  Per
the spec (§4.5, §7): when the scraped content carries a failure, produce
a single generic fallback variant embedding the failure reason in the
description and skip both generation paths; otherwise run the ordinary
generator on the content summary. -/
def generate_copy (content : ScrapedContent)
    (api_key backend_response : Option (List Char))
    (persona keyword : List Char) (num_variants : Nat)
    (pick : Nat → Nat) : List AdDict :=
  match content.error with
  | some reason =>
    [⟨some (("Quality Products & Services").data),
      some (("Shop With Confidence").data),
      some ((("Ad generation fallback: ").data) ++ reason)⟩]
  | none =>
    generate_ads api_key backend_response content.summary persona keyword
      num_variants pick

/-! ## Truncation lemmas -/

theorem rsplitHead_length_le (s : List Char) : (rsplitHead s).length ≤ s.length := by
  unfold rsplitHead
  split
  · calc ((s.reverse.dropWhile fun c => decide (c ≠ ' ')).tail).reverse.length
        = ((s.reverse.dropWhile fun c => decide (c ≠ ' ')).tail).length := by
          rw [List.length_reverse]
      _ ≤ (s.reverse.dropWhile fun c => decide (c ≠ ' ')).length := by
          rw [List.length_tail]; omega
      _ ≤ s.reverse.length := (List.dropWhile_sublist _).length_le
      _ = s.length := List.length_reverse s
  · exact Nat.le_refl _

theorem rsplitHead_of_not_mem {s : List Char} (h : ' ' ∉ s) : rsplitHead s = s := by
  unfold rsplitHead
  rw [if_neg h]

theorem dropWhile_head_false (p : Char → Bool) :
    ∀ (l : List Char) (d : Char) (D : List Char), l.dropWhile p = d :: D → p d = false
  | [], d, D, h => by simp [List.dropWhile] at h
  | c :: cs, d, D, h => by
    rw [List.dropWhile_cons] at h
    by_cases hc : p c
    · rw [if_pos hc] at h
      exact dropWhile_head_false p cs d D h
    · rw [if_neg hc] at h
      cases h
      exact Bool.eq_false_iff.mpr hc

/-- The word-boundary decomposition of `rsplit(' ', 1)`: when `s` holds a
space, `s` splits as the returned head, the last space, and a space-free
tail. -/
theorem rsplitHead_decomp {s : List Char} (h : ' ' ∈ s) :
    ∃ t, s = rsplitHead s ++ ' ' :: t ∧ ' ' ∉ t := by
  set p : Char → Bool := fun c => decide (c ≠ ' ') with hp
  have hmem : ' ' ∈ s.reverse := List.mem_reverse.mpr h
  have hne : s.reverse.dropWhile p ≠ [] := by
    intro hnil
    have := (List.dropWhile_eq_nil_iff).mp hnil ' ' hmem
    simp [hp] at this
  obtain ⟨d, D, hdD⟩ := List.exists_cons_of_ne_nil hne
  have hd : d = ' ' := by
    have := dropWhile_head_false p s.reverse d D hdD
    simpa [hp] using this
  refine ⟨(s.reverse.takeWhile p).reverse, ?_, ?_⟩
  · have hsplit : s.reverse.takeWhile p ++ s.reverse.dropWhile p = s.reverse :=
      List.takeWhile_append_dropWhile p s.reverse
    have hrs : rsplitHead s = D.reverse := by
      unfold rsplitHead
      rw [if_pos h]
      have hdd : (s.reverse.dropWhile fun c => decide (c ≠ ' ')) = d :: D := by
        rw [← hp, hdD]
      rw [hdd]
      rfl
    have hs : s = (s.reverse.takeWhile p ++ (d :: D)).reverse := by
      rw [hdD] at hsplit
      rw [hsplit, List.reverse_reverse]
    rw [hrs]
    calc s = (s.reverse.takeWhile p ++ (d :: D)).reverse := hs
      _ = (d :: D).reverse ++ (s.reverse.takeWhile p).reverse :=
          List.reverse_append _ _
      _ = D.reverse ++ [d] ++ (s.reverse.takeWhile p).reverse := by
          rw [List.reverse_cons]
      _ = D.reverse ++ ' ' :: (s.reverse.takeWhile p).reverse := by
          rw [hd, List.append_assoc]
          rfl
  · intro hx
    have hx' : ' ' ∈ s.reverse.takeWhile p := List.mem_reverse.mp hx
    have := List.mem_takeWhile_imp hx'
    simp [hp] at this

theorem truncate_length_le (s : List Char) (n : Nat) :
    (truncate_for_google_ads s n).length ≤ n := by
  unfold truncate_for_google_ads
  split
  · assumption
  next hlen =>
    have htr : (rsplitHead (s.take n)).length ≤ n := by
      refine le_trans (rsplitHead_length_le _) ?_
      rw [List.length_take]
      omega
    split
    next hcond => omega
    next => exact htr

theorem truncate_of_le {s : List Char} {n : Nat} (h : s.length ≤ n) :
    truncate_for_google_ads s n = s := by
  unfold truncate_for_google_ads
  rw [if_pos h]

/-- The source's `if len(truncated) > max_length` branch (utils.py
lines 122-123) is dead: on the long-input path the result is always the
word-boundary backoff of the first `n` characters. -/
theorem truncate_eq_rsplitHead {s : List Char} {n : Nat} (h : n < s.length) :
    truncate_for_google_ads s n = rsplitHead (s.take n) := by
  unfold truncate_for_google_ads
  rw [if_neg (by omega)]
  have htr : (rsplitHead (s.take n)).length ≤ n := by
    refine le_trans (rsplitHead_length_le _) ?_
    rw [List.length_take]
    omega
  rw [if_neg (by omega)]

/-- Claim C3 (corrected): for `n ≥ 4`, truncation returns `s` unchanged
when `len s ≤ n`; otherwise, when the first `n` characters hold no space
(a single overlong word) it hard-cuts at exactly `n` characters and
appends no ellipsis (the source's `limit - 3` + `"..."` branch is dead
code); when they do hold a space it backs off to the last space within
the cut string; in every case the result's length never exceeds `n`. -/
theorem claim_C3_truncate_for_google_ads (s : List Char) (n : Nat) (h : 4 ≤ n) :
    (truncate_for_google_ads s n).length ≤ n ∧
    (s.length ≤ n → truncate_for_google_ads s n = s) ∧
    (n < s.length → ' ' ∉ s.take n → truncate_for_google_ads s n = s.take n) ∧
    (n < s.length → ' ' ∈ s.take n →
      ∃ t, s.take n = truncate_for_google_ads s n ++ ' ' :: t ∧ ' ' ∉ t) := by
  refine ⟨truncate_length_le s n, fun hle => truncate_of_le hle, ?_, ?_⟩
  · intro hlt hsp
    rw [truncate_eq_rsplitHead hlt, rsplitHead_of_not_mem hsp]
  · intro hlt hsp
    rw [truncate_eq_rsplitHead hlt]
    exact rsplitHead_decomp hsp

/-- Witness for C3 at the spec's Scenario B input. -/
theorem claim_C3_truncate_for_google_ads_witness :
    (truncate_for_google_ads
      (("Best Home Security Systems For Budget Buyers").data) 30).length ≤ 30 :=
  (claim_C3_truncate_for_google_ads _ 30 (by decide)).1

/-- Counterexample to C3 as stated: at the single overlong word
`"aaaaa"` with limit 4 the code returns the plain 4-character hard cut
`"aaaa"`, not the claimed `limit - 3` cut with an ellipsis (`"a..."`). -/
theorem claim_C3_counterexample :
    truncate_for_google_ads (("aaaaa").data) 4 = ("aaaa").data ∧
    truncate_for_google_ads (("aaaaa").data) 4 ≠ ("a...").data := by
  constructor
  · decide
  · decide

/-- Claim C8: truncation is idempotent for every string and limit
`n ≥ 4` (the result of a first truncation is always within the limit, so
a second truncation returns it unchanged). -/
theorem claim_C8_truncate_idempotent (s : List Char) (n : Nat) (h : 4 ≤ n) :
    truncate_for_google_ads (truncate_for_google_ads s n) n =
      truncate_for_google_ads s n :=
  truncate_of_le (truncate_length_le s n)

/-- Witness for C8 at a concrete input. -/
theorem claim_C8_truncate_idempotent_witness :
    truncate_for_google_ads
        (truncate_for_google_ads (("Best Home Security Systems For Budget Buyers").data) 30) 30 =
      truncate_for_google_ads (("Best Home Security Systems For Budget Buyers").data) 30 :=
  claim_C8_truncate_idempotent _ 30 (by decide)

/-! ## Text normalization: claim C5 -/

set_option maxRecDepth 8000 in
/-- Claim C5 is a code bug: `clean_text` appends the three-character
ellipsis after cutting to `max_length`, so its result can exceed the
bound its own docstring promises.  On `"aaaaaa"` with bound 5 the result
is `"aaaaa..."` of length 8, and on a 501-character space-free string
the body-excerpt call (`max_length = 500`, scraper.py line 190) returns
503 characters. -/
theorem claim_C5_clean_text_bug :
    (clean_text (("aaaaaa").data) 5).length = 8 ∧
    (clean_text (List.replicate 501 'a') 500).length = 503 := by
  constructor
  · decide
  · decide

/-! ## Substring-test lemmas -/

theorem isSubstring_of_infix : ∀ {h a : List Char}, a <:+: h → isSubstring a h = true := by
  intro h
  induction h with
  | nil =>
    intro a ha
    rw [List.infix_nil] at ha
    subst ha
    rfl
  | cons c cs ih =>
    intro a ha
    rcases List.infix_cons_iff.mp ha with hp | hi
    · simp only [isSubstring, Bool.or_eq_true]
      exact Or.inl (List.isPrefixOf_iff_prefix.mpr hp)
    · simp only [isSubstring, Bool.or_eq_true]
      exact Or.inr (ih hi)

/-! ## The length invariant of every generated record: claim C1 -/

theorem within_emptyAd : within_google_limits emptyAd := by
  refine ⟨?_, ?_, ?_⟩ <;> intro s hs <;> simp [emptyAd] at hs

theorem template_variant_within (kw : List Char) (pick : Nat → Nat)
    (ctr : Nat) (used : List Combo) :
    within_google_limits (template_variant kw pick ctr used).1 := by
  refine ⟨fun s hs => ?_, fun s hs => ?_, fun s hs => ?_⟩ <;>
    · simp only [template_variant] at hs
      injection hs with hs
      exact hs ▸ truncate_length_le _ _

theorem templates_loop_within (kw : List Char) (pick : Nat → Nat) :
    ∀ (n ctr : Nat) (used : List Combo) (ad : AdDict),
      ad ∈ templates_loop kw pick n ctr used → within_google_limits ad
  | 0, ctr, used, ad, h => by simp [templates_loop] at h
  | n + 1, ctr, used, ad, h => by
    simp only [templates_loop] at h
    rcases List.mem_cons.mp h with h | h
    · exact h ▸ template_variant_within kw pick ctr used
    · exact templates_loop_within kw pick n _ _ ad h

theorem generate_with_templates_within (c p kw : List Char) (n : Nat)
    (pick : Nat → Nat) (ad : AdDict)
    (h : ad ∈ _generate_with_templates c p kw n pick) :
    within_google_limits ad :=
  templates_loop_within kw pick n 0 [] ad h

theorem parse_line_inv (st : AdDict × List AdDict) (line : List Char)
    (h1 : within_google_limits st.1)
    (h2 : ∀ ad ∈ st.2, within_google_limits ad) :
    within_google_limits (parse_line st line).1 ∧
      ∀ ad ∈ (parse_line st line).2, within_google_limits ad := by
  obtain ⟨g1, g2, g3⟩ := h1
  simp only [parse_line]
  split
  · exact ⟨⟨g1, g2, g3⟩, h2⟩
  split
  · split
    · refine ⟨within_emptyAd, fun ad had => ?_⟩
      rcases List.mem_append.mp had with had | had
      · exact h2 ad had
      · rcases List.mem_singleton.mp had with rfl
        exact ⟨g1, g2, g3⟩
    · exact ⟨⟨g1, g2, g3⟩, h2⟩
  split
  · refine ⟨⟨fun s hs => ?_, g2, g3⟩, h2⟩
    injection hs with hs
    exact hs ▸ truncate_length_le _ _
  split
  · refine ⟨⟨g1, fun s hs => ?_, g3⟩, h2⟩
    injection hs with hs
    exact hs ▸ truncate_length_le _ _
  split
  · refine ⟨⟨g1, g2, fun s hs => ?_⟩, h2⟩
    injection hs with hs
    exact hs ▸ truncate_length_le _ _
  · exact ⟨⟨g1, g2, g3⟩, h2⟩

theorem foldl_parse_inv (lines : List (List Char)) :
    ∀ st : AdDict × List AdDict,
      within_google_limits st.1 → (∀ ad ∈ st.2, within_google_limits ad) →
      within_google_limits (lines.foldl parse_line st).1 ∧
        ∀ ad ∈ (lines.foldl parse_line st).2, within_google_limits ad := by
  induction lines with
  | nil => exact fun st h1 h2 => ⟨h1, h2⟩
  | cons l ls ih =>
    intro st h1 h2
    rw [List.foldl_cons]
    obtain ⟨e1, e2⟩ := parse_line_inv st l h1 h2
    exact ih _ e1 e2

theorem parsed_ads_within (txt : List Char) (ad : AdDict)
    (h : ad ∈ parsed_ads txt) : within_google_limits ad := by
  simp only [parsed_ads] at h
  obtain ⟨e1, e2⟩ :=
    foldl_parse_inv (txt.splitOn '\n') (emptyAd, []) within_emptyAd (by simp)
  split at h
  · rcases List.mem_append.mp h with h | h
    · exact e2 ad h
    · rcases List.mem_singleton.mp h with rfl
      exact e1
  · exact e2 ad h

theorem parse_response_within (txt : List Char) (n : Nat) (pick : Nat → Nat)
    (ad : AdDict) (h : ad ∈ _parse_openai_response txt n pick) :
    within_google_limits ad := by
  simp only [_parse_openai_response] at h
  split at h
  · exact generate_with_templates_within [] [] [] n pick ad h
  · exact parsed_ads_within txt ad ((List.take_sublist n _).subset h)

/-- Claim C1: every record returned by `generate_ads` — on the
generative-backend path (any backend response, including the parse
fallback) as well as the template path — satisfies the Google Ads
length limits: `len headline1 ≤ 30`, `len headline2 ≤ 30`,
`len description ≤ 90`. -/
theorem claim_C1_generate_ads_within_limits (api resp : Option (List Char))
    (content persona kw : List Char) (n : Nat) (pick : Nat → Nat)
    (ad : AdDict) (had : ad ∈ generate_ads api resp content persona kw n pick) :
    within_google_limits ad := by
  unfold generate_ads at had
  rcases api with _ | k
  · exact generate_with_templates_within content persona kw n pick ad had
  · rcases resp with _ | txt
    · exact generate_with_templates_within content persona kw n pick ad had
    · exact parse_response_within txt n pick ad had

/-- Witness for C1: the single template-mode record for keyword `"x"`. -/
theorem claim_C1_generate_ads_within_limits_witness :
    within_google_limits
      ((generate_ads none none [] [] (("x").data) 1 (fun _ => 0)).headD emptyAd) :=
  claim_C1_generate_ads_within_limits none none [] [] (("x").data) 1 (fun _ => 0) _
    (by decide)

/-! ## Exact variant count: claim C10 -/

theorem templates_loop_length (kw : List Char) (pick : Nat → Nat) :
    ∀ (n ctr : Nat) (used : List Combo),
      (templates_loop kw pick n ctr used).length = n
  | 0, _, _ => rfl
  | n + 1, ctr, used => by
    simp only [templates_loop, List.length_cons,
      templates_loop_length kw pick n]

/-- Claim C10: `generate_ads` returns exactly `num_variants` records on
both the backend-configured path (for every backend response: the parse
either keeps the first `num_variants` complete records or falls back to
the full template batch) and the template-only path; no validation step
drops a record on the returned path, and `num_variants = 0` yields the
empty list. -/
theorem claim_C10_generate_ads_count (api resp : Option (List Char))
    (content persona kw : List Char) (n : Nat) (pick : Nat → Nat) :
    (generate_ads api resp content persona kw n pick).length = n := by
  have htempl : ∀ c p, (_generate_with_templates c p kw n pick).length = n :=
    fun c p => templates_loop_length kw pick n 0 []
  unfold generate_ads
  rcases api with _ | k
  · exact htempl content persona
  · rcases resp with _ | txt
    · exact htempl content persona
    · simp only [_parse_openai_response]
      split
      · exact templates_loop_length [] pick n 0 []
      next hge =>
        rw [List.length_take]
        omega

/-! ## Validation: claim C6 -/

/-- Counterexample to C6 as stated: a record whose three fields are all
present but empty is accepted by `validate_ads` (its length checks pass
at length 0), not dropped — the source never tests non-emptiness. -/
theorem claim_C6_counterexample :
    validate_ads [⟨some [], some [], some []⟩] = [⟨some [], some [], some []⟩] := by
  decide

/-- Claim C6 (corrected): `validate_ads` keeps exactly the records whose
three fields are all present and within the 30/30/90 length bounds —
records are dropped, never altered (the output is a sublist of the
input) — but, contrary to the claim, emptiness is not checked: a record
with present-but-empty fields is accepted. -/
theorem claim_C6_validate_ads (ads : List AdDict) (ad : AdDict) :
    (ad ∈ validate_ads ads ↔
      ad ∈ ads ∧ ad.headline1.isSome ∧ ad.headline2.isSome ∧
      ad.description.isSome ∧ (ad.headline1.getD []).length ≤ 30 ∧
      (ad.headline2.getD []).length ≤ 30 ∧
      (ad.description.getD []).length ≤ 90) ∧
    (validate_ads ads).Sublist ads := by
  constructor
  · simp only [validate_ads, List.mem_filter, Bool.and_eq_true,
      decide_eq_true_eq, and_assoc]
  · exact List.filter_sublist ads

/-! ## Parse-failure fallback: claim C7 -/

/-- Counterexample to C7 as stated: with a configured backend whose
response parses to zero records, the generator does not fall back to the
template path "for the same request" — the source calls the template
path with empty content summary, persona and keyword
(generator.py line 190), so the keyword `"shoes"` of the request is
lost. -/
theorem claim_C7_counterexample :
    generate_ads (some []) (some []) (("summary").data) (("persona").data)
        (("shoes").data) 1 (fun _ => 0) ≠
      _generate_with_templates (("summary").data) (("persona").data)
        (("shoes").data) 1 (fun _ => 0) := by
  decide

/-- Claim C7 (corrected): when parsing yields fewer complete records
than requested, the generator performs a full fallback to the template
path with the same variant count but empty content summary, persona and
keyword — never publishing a partial set of generative records.  Since
the template path ignores its content-summary and persona arguments
entirely, the divergence from "the same request" is exactly the
keyword. -/
theorem claim_C7_parse_fallback (txt : List Char) (n : Nat)
    (pick : Nat → Nat) (c p kw : List Char)
    (h : (parsed_ads txt).length < n) :
    _parse_openai_response txt n pick =
      _generate_with_templates [] [] [] n pick ∧
    _generate_with_templates c p kw n pick =
      _generate_with_templates [] [] kw n pick := by
  constructor
  · simp only [_parse_openai_response]
    rw [if_pos h]
  · rfl

/-- Witness for C7: the empty response parses to zero records, below the
requested single variant. -/
theorem claim_C7_parse_fallback_witness :
    _parse_openai_response [] 1 (fun _ => 0) =
      _generate_with_templates [] [] [] 1 (fun _ => 0) :=
  (claim_C7_parse_fallback [] 1 (fun _ => 0) [] [] [] (by decide)).1

/-! ## Keyword presence in the primary headline: claim C4 -/

/-- Counterexample to C4 as stated: with the 26-character keyword
`"abcdefghijklmnopqrstuvwxyz"` the force-substituted headline
`"Best abcdefghijklmnopqrstuvwxyz Deals"` is then truncated to 30
characters, which backs off to the word boundary `"Best"` — the keyword
does not appear in the returned primary headline. -/
theorem claim_C4_counterexample :
    ∃ ad ∈ _generate_with_templates [] []
        (("abcdefghijklmnopqrstuvwxyz").data) 1 (fun _ => 0),
      isSubstring (pyLower (("abcdefghijklmnopqrstuvwxyz").data))
        (pyLower (ad.headline1.getD [])) = false := by
  decide

theorem keyword_infix_best_deals (kw : List Char) :
    isSubstring (pyLower kw)
      (pyLower (("Best ").data ++ kw ++ (" Deals").data)) = true := by
  apply isSubstring_of_infix
  refine ⟨pyLower (("Best ").data), pyLower ((" Deals").data), ?_⟩
  simp [pyLower]

theorem templates_loop_keyword (kw : List Char) (pick : Nat → Nat) :
    ∀ (n ctr : Nat) (used : List Combo) (ad : AdDict),
      ad ∈ templates_loop kw pick n ctr used →
      ∃ h, ad.headline1 = some (truncate_for_google_ads h 30) ∧
        isSubstring (pyLower kw) (pyLower h) = true
  | 0, ctr, used, ad, h => by simp [templates_loop] at h
  | n + 1, ctr, used, ad, h => by
    simp only [templates_loop] at h
    rcases List.mem_cons.mp h with rfl | h
    · by_cases hc : isSubstring (pyLower kw)
        (pyLower (sample_combination kw pick 20 ctr used).1.1) = true
      · refine ⟨(sample_combination kw pick 20 ctr used).1.1, ?_, hc⟩
        simp [template_variant, hc]
      · refine ⟨("Best ").data ++ kw ++ (" Deals").data, ?_,
          keyword_infix_best_deals kw⟩
        have hc' : isSubstring (pyLower kw)
            (pyLower (sample_combination kw pick 20 ctr used).1.1) = false :=
          Bool.eq_false_iff.mpr hc
        simp [template_variant, hc']
    · exact templates_loop_keyword kw pick n _ _ ad h

/-- Claim C4 (corrected): for every keyword and every template-path
variant, the keyword appears case-insensitively in the primary headline
as chosen or force-substituted — i.e. in the pre-truncation value whose
30-character truncation is the returned `headline1`.  The enforcement is
deterministic, but it happens before truncation, so the keyword can be
cut back out of the returned field (see the counterexample). -/
theorem claim_C4_keyword_in_headline (content persona kw : List Char)
    (n : Nat) (pick : Nat → Nat) (ad : AdDict)
    (had : ad ∈ _generate_with_templates content persona kw n pick) :
    ∃ h, ad.headline1 = some (truncate_for_google_ads h 30) ∧
      isSubstring (pyLower kw) (pyLower h) = true :=
  templates_loop_keyword kw pick n 0 [] ad had

/-- Witness for C4 at the keyword `"shoes"` in template mode. -/
theorem claim_C4_keyword_in_headline_witness :
    ∃ h, ((_generate_with_templates [] [] (("shoes").data) 1
        (fun _ => 0)).headD emptyAd).headline1 =
        some (truncate_for_google_ads h 30) ∧
      isSubstring (pyLower (("shoes").data)) (pyLower h) = true :=
  claim_C4_keyword_in_headline [] [] (("shoes").data) 1 (fun _ => 0) _
    (by decide)

/-! ## Fetch-failure fallback: claim C2 (spec-modelled entry point) -/

/-- Claim C2: when the scraped content carries a failure reason, the
copy-generation entry point returns exactly one variant — a generic
fallback embedding the failure reason in its description — and both
generation paths are skipped: the result does not depend on the backend
credential, the backend response or the sampling oracle.  (Settled
against the spec-modelled `generate_copy`: the module-level entry point
`app.py` imports is absent from `src/`.) -/
theorem claim_C2_failure_fallback (content : ScrapedContent) (r : List Char)
    (hr : content.error = some r) (api resp api' resp' : Option (List Char))
    (persona kw : List Char) (n : Nat) (pick pick' : Nat → Nat) :
    (generate_copy content api resp persona kw n pick).length = 1 ∧
    (∀ ad ∈ generate_copy content api resp persona kw n pick,
      ∃ d, ad.description = some d ∧ isSubstring r d = true) ∧
    generate_copy content api resp persona kw n pick =
      generate_copy content api' resp' persona kw n pick' := by
  unfold generate_copy
  rw [hr]
  refine ⟨rfl, ?_, rfl⟩
  intro ad had
  rcases List.mem_singleton.mp had with rfl
  refine ⟨_, rfl, ?_⟩
  exact isSubstring_of_infix ⟨("Ad generation fallback: ").data, [], by simp⟩

/-- Witness for C2 at a concrete connection failure. -/
theorem claim_C2_failure_fallback_witness :
    (generate_copy (scrape_failure (("conn refused").data)) none none [] [] 5
      (fun _ => 0)).length = 1 :=
  (claim_C2_failure_fallback (scrape_failure (("conn refused").data))
    ((("Failed to scrape URL: ").data) ++ (("conn refused").data)) rfl
    none none none none [] [] 5 (fun _ => 0) (fun _ => 0)).1

/-! ## Keyword extraction: claim C9 -/

theorem firstIdx_append_of_mem {w : List Char} :
    ∀ {l₁ : List (List Char)} (l₂ : List (List Char)), w ∈ l₁ →
      firstIdx w (l₁ ++ l₂) = firstIdx w l₁
  | [], _, h => absurd h (List.not_mem_nil w)
  | x :: xs, l₂, h => by
    by_cases hxw : x = w
    · simp [firstIdx, hxw]
    · have hmem : w ∈ xs := by
        rcases List.mem_cons.mp h with rfl | hh
        · exact absurd rfl hxw
        · exact hh
      simp [firstIdx, hxw, firstIdx_append_of_mem l₂ hmem]

theorem firstIdx_append_of_not_mem {w : List Char} :
    ∀ {l₁ : List (List Char)} (l₂ : List (List Char)), w ∉ l₁ →
      firstIdx w (l₁ ++ l₂) = l₁.length + firstIdx w l₂
  | [], l₂, _ => by simp [firstIdx]
  | x :: xs, l₂, h => by
    have hxw : ¬x = w := fun hh => h (hh ▸ List.mem_cons_self x xs)
    have hxs : w ∉ xs := fun hh => h (List.mem_cons_of_mem x hh)
    simp [firstIdx, hxw, firstIdx_append_of_not_mem l₂ hxs]
    omega

theorem firstIdx_lt_length {w : List Char} :
    ∀ {l : List (List Char)}, w ∈ l → firstIdx w l < l.length
  | [], h => absurd h (List.not_mem_nil w)
  | x :: xs, h => by
    by_cases hxw : x = w
    · simp [firstIdx, hxw]
    · have hmem : w ∈ xs := by
        rcases List.mem_cons.mp h with rfl | hh
        · exact absurd rfl hxw
        · exact hh
      have := firstIdx_lt_length hmem
      simp [firstIdx, hxw]
      omega

theorem word_count_bump_of_not_mem (v : List Char) :
    ∀ (m : List (List Char × Nat)), v ∉ m.map Prod.fst →
      word_count_bump v m = m ++ [(v, 1)]
  | [], _ => rfl
  | (a, n) :: rest, hv => by
    have hav : ¬a = v := fun h => hv (by simp [h])
    have hrest : v ∉ rest.map Prod.fst := fun h => hv (by simp [h])
    simp [word_count_bump, hav, word_count_bump_of_not_mem v rest hrest]

theorem word_count_bump_of_mem (v : List Char) :
    ∀ (m : List (List Char × Nat)), v ∈ m.map Prod.fst →
      (m.map Prod.fst).Nodup →
      word_count_bump v m =
        m.map (fun e => if e.1 = v then (e.1, e.2 + 1) else e)
  | [], hv, _ => by simp at hv
  | (a, n) :: rest, hv, hnd => by
    rw [List.map_cons, List.nodup_cons] at hnd
    by_cases hav : a = v
    · subst hav
      have hrest : ∀ e ∈ rest, ¬e.1 = a := by
        intro e he hea
        have hm : e.1 ∈ rest.map Prod.fst := List.mem_map_of_mem Prod.fst he
        rw [hea] at hm
        exact hnd.1 hm
      have hmap : rest.map (fun e => if e.1 = a then (e.1, e.2 + 1) else e) = rest := by
        rw [show rest = rest.map id by simp]
        rw [List.map_map]
        refine List.map_congr_left ?_
        intro e he
        simp [hrest e (by simpa using he)]
      simp [word_count_bump, hmap]
    · have hv' : v ∈ rest.map Prod.fst := by
        rcases List.mem_map.mp hv with ⟨e, he, hev⟩
        rcases List.mem_cons.mp he with he1 | he2
        · exact absurd (by rw [← hev, he1]) hav
        · have hm : e.1 ∈ rest.map Prod.fst := List.mem_map_of_mem Prod.fst he2
          rwa [hev] at hm
      simp [word_count_bump, hav,
        word_count_bump_of_mem v rest hv' hnd.2]

/-- The frequency dict of `extract_keywords`, characterised: each entry
carries its key's frequency in the token list and a key occurring in the
tokens; keys are distinct, listed in first-occurrence order, and every
token has an entry. -/
theorem word_count_invariant (ws : List (List Char)) :
    (∀ e ∈ word_count ws, e.2 = ws.count e.1 ∧ e.1 ∈ ws) ∧
    ((word_count ws).map Prod.fst).Nodup ∧
    List.Pairwise (fun e f : List Char × Nat =>
      firstIdx e.1 ws < firstIdx f.1 ws) (word_count ws) ∧
    (∀ w ∈ ws, w ∈ (word_count ws).map Prod.fst) := by
  induction ws using List.reverseRecOn with
  | nil => simp [word_count]
  | append_singleton ws v ih =>
    obtain ⟨I1, I2, I3, I4⟩ := ih
    have hwc : word_count (ws ++ [v]) = word_count_bump v (word_count ws) := by
      simp [word_count, List.foldl_append]
    by_cases hv : v ∈ (word_count ws).map Prod.fst
    · -- the key is already present: its count is incremented in place
      have hvws : v ∈ ws := by
        rcases List.mem_map.mp hv with ⟨e, he, hev⟩
        exact hev ▸ (I1 e he).2
      have hmap := word_count_bump_of_mem v (word_count ws) hv I2
      have hfst : ∀ e : List Char × Nat,
          ((fun e => if e.1 = v then (e.1, e.2 + 1) else e) e).1 = e.1 := by
        intro e
        by_cases h : e.1 = v <;> simp [h]
      have hkeys : (word_count (ws ++ [v])).map Prod.fst =
          (word_count ws).map Prod.fst := by
        rw [hwc, hmap, List.map_map]
        exact List.map_congr_left fun e _ => hfst e
      refine ⟨?_, ?_, ?_, ?_⟩
      · intro e' he'
        rw [hwc, hmap] at he'
        rcases List.mem_map.mp he' with ⟨e, he, hfe⟩
        obtain ⟨hc, hm⟩ := I1 e he
        by_cases h : e.1 = v
        · rw [if_pos h] at hfe
          subst hfe
          refine ⟨?_, List.mem_append_left _ hm⟩
          rw [hc, h]
          simp [List.count_append, List.count_singleton_self]
        · rw [if_neg h] at hfe
          subst hfe
          refine ⟨?_, List.mem_append_left _ hm⟩
          rw [hc]
          have : List.count e.1 [v] = 0 := by
            refine List.count_eq_zero.mpr ?_
            simp only [List.mem_singleton]
            exact h
          simp [List.count_append, this]
      · rw [hkeys]; exact I2
      · rw [hwc, hmap]
        rw [List.pairwise_map]
        refine I3.imp_of_mem ?_
        intro a b ha hb hr
        rw [hfst a, hfst b]
        rw [firstIdx_append_of_mem [v] (I1 a ha).2,
          firstIdx_append_of_mem [v] (I1 b hb).2]
        exact hr
      · intro w hw
        rw [hkeys]
        rcases List.mem_append.mp hw with hw | hw
        · exact I4 w hw
        · rcases List.mem_singleton.mp hw with rfl
          exact hv
    · -- a fresh key: appended at the end with count 1
      have hvws : v ∉ ws := fun h => hv (I4 v h)
      have hmap := word_count_bump_of_not_mem v (word_count ws) hv
      refine ⟨?_, ?_, ?_, ?_⟩
      · intro e' he'
        rw [hwc, hmap] at he'
        rcases List.mem_append.mp he' with he' | he'
        · obtain ⟨hc, hm⟩ := I1 e' he'
          refine ⟨?_, List.mem_append_left _ hm⟩
          rw [hc]
          have hne : List.count e'.1 [v] = 0 := by
            refine List.count_eq_zero.mpr ?_
            simp only [List.mem_singleton]
            intro hh
            exact hvws (hh ▸ hm)
          simp [List.count_append, hne]
        · rcases List.mem_singleton.mp he' with rfl
          refine ⟨?_, List.mem_append_right _ (by simp)⟩
          have h0 : List.count v ws = 0 := List.count_eq_zero.mpr hvws
          simp [List.count_append, h0, List.count_singleton_self]
      · rw [hwc, hmap, List.map_append]
        rw [List.nodup_append]
        refine ⟨I2, by simp, ?_⟩
        intro x hx hx'
        simp only [List.map_cons, List.map_nil, List.mem_singleton] at hx'
        exact hv (hx' ▸ hx)
      · rw [hwc, hmap]
        rw [List.pairwise_append]
        refine ⟨?_, by simp, ?_⟩
        · refine I3.imp_of_mem ?_
          intro a b ha hb hr
          rw [firstIdx_append_of_mem [v] (I1 a ha).2,
            firstIdx_append_of_mem [v] (I1 b hb).2]
          exact hr
        · intro a ha b hb
          rcases List.mem_singleton.mp hb with rfl
          have hma : a.1 ∈ ws := (I1 a ha).2
          rw [firstIdx_append_of_mem [v] hma,
            firstIdx_append_of_not_mem [v] hvws]
          have := firstIdx_lt_length hma
          simp [firstIdx]
          omega
      · intro w hw
        rw [hwc, hmap, List.map_append]
        rcases List.mem_append.mp hw with hw | hw
        · exact List.mem_append_left _ (I4 w hw)
        · rcases List.mem_singleton.mp hw with rfl
          exact List.mem_append_right _ (by simp)

/-- Claim C9: keyword extraction (a pure function, hence deterministic)
returns at most `max_keywords` words, each longer than the configured
minimum of 2 characters and none a stop word, ordered by descending
frequency in the filtered token list with ties broken by
first-occurrence order. -/
theorem claim_C9_extract_keywords (text : List Char) (max_keywords : Nat) :
    (extract_keywords text max_keywords).length ≤ max_keywords ∧
    (∀ w ∈ extract_keywords text max_keywords,
      2 < w.length ∧ w ∉ stop_words) ∧
    List.Pairwise (fun a b =>
      (tokensOf text).count b ≤ (tokensOf text).count a ∧
      ((tokensOf text).count a = (tokensOf text).count b →
        firstIdx a (tokensOf text) < firstIdx b (tokensOf text)))
      (extract_keywords text max_keywords) := by
  by_cases htext : text = []
  · simp [extract_keywords, htext]
  obtain ⟨I1, I2, I3, I4⟩ := word_count_invariant (tokensOf text)
  have hperm := List.perm_insertionSort countOrder (word_count (tokensOf text)).enum
  have hsorted := List.sorted_insertionSort countOrder (word_count (tokensOf text)).enum
  have hmemtok : ∀ w ∈ tokensOf text, keywordToken w = true := by
    intro w hw
    exact (List.mem_filter.mp hw).2
  have hext : extract_keywords text max_keywords =
      ((List.insertionSort countOrder
        (word_count (tokensOf text)).enum).take max_keywords).map
        (fun e => e.2.1) := by
    simp [extract_keywords, htext]
  have hmementry : ∀ e : Nat × (List Char × Nat),
      e ∈ (List.insertionSort countOrder
        (word_count (tokensOf text)).enum).take max_keywords →
      (word_count (tokensOf text)).get? e.1 = some e.2 := by
    intro e he
    exact List.mem_enum_iff_get?.mp
      (hperm.subset ((List.take_sublist _ _).subset he))
  refine ⟨?_, ?_, ?_⟩
  · rw [hext, List.length_map, List.length_take]
    omega
  · intro w hw
    rw [hext] at hw
    rcases List.mem_map.mp hw with ⟨e, he, hew⟩
    have hmem : e.2 ∈ word_count (tokensOf text) :=
      List.get?_mem (hmementry e he)
    have hkw : keywordToken e.2.1 = true := hmemtok _ (I1 e.2 hmem).2
    rw [keywordToken, Bool.and_eq_true, Bool.not_eq_true',
      decide_eq_true_eq] at hkw
    subst hew
    exact ⟨hkw.2, by simpa using hkw.1⟩
  · rw [hext, List.pairwise_map]
    have hnodupidx : List.Pairwise
        (fun a b : Nat × (List Char × Nat) => a.1 ≠ b.1)
        (List.insertionSort countOrder (word_count (tokensOf text)).enum) := by
      have h1 : ((List.insertionSort countOrder
          (word_count (tokensOf text)).enum).map Prod.fst).Nodup := by
        refine (hperm.map Prod.fst).nodup_iff.mpr ?_
        rw [List.enum_map_fst]
        exact List.nodup_range _
      exact List.pairwise_map.mp h1
    have hcomb := (List.Pairwise.and hsorted hnodupidx).sublist
      (List.take_sublist max_keywords _)
    refine hcomb.imp_of_mem ?_
    intro a b ha hb hr
    obtain ⟨hord, hne⟩ := hr
    obtain ⟨hia, hga⟩ := List.get?_eq_some.mp (hmementry a ha)
    obtain ⟨hib, hgb⟩ := List.get?_eq_some.mp (hmementry b hb)
    have hca : a.2.2 = (tokensOf text).count a.2.1 :=
      (I1 a.2 (List.get?_mem (hmementry a ha))).1
    have hcb : b.2.2 = (tokensOf text).count b.2.1 :=
      (I1 b.2 (List.get?_mem (hmementry b hb))).1
    constructor
    · rcases hord with hlt | ⟨heq, _⟩
      · rw [← hca, ← hcb]; omega
      · rw [← hca, ← hcb, heq]
    · intro hceq
      have heq2 : a.2.2 = b.2.2 := by rw [hca, hcb, hceq]
      rcases hord with hlt | ⟨_, hle⟩
      · omega
      · have hab : a.1 < b.1 := lt_of_le_of_ne hle hne
        have := (List.pairwise_iff_get.mp I3) ⟨a.1, hia⟩ ⟨b.1, hib⟩
          (Fin.mk_lt_mk.mpr hab)
        rw [hga, hgb] at this
        exact this

/-! ## Sanity checks against the Python semantics -/

example : pyStrip (("  ab c  ").data) = ("ab c").data := by decide
example : collapseWs false (("a  b").data) = ("a b").data := by decide
example : rsplitHead (("ab cd e").data) = ("ab cd").data := by decide
example : rsplitHead ((" abc").data) = [] := by decide
example : rsplitHead (("abc").data) = ("abc").data := by decide
example : truncate_for_google_ads (("ab cd ef").data) 7 = ("ab cd").data := by decide
example : truncate_for_google_ads (("aaaaa").data) 4 = ("aaaa").data := by decide
example : clean_text (("  This   is  a   test  ").data) 300 = ("This is a test").data := by
  decide
example : clean_text (("aaaaaa").data) 5 = ("aaaaa...").data := by decide
example : clean_text (("abc de").data) 5 = ("abc...").data := by decide
example :
    extract_keywords (("this is a test of keyword extraction functionality").data) 5 =
      [("test").data, ("keyword").data, ("extraction").data, ("functionality").data] := by
  decide
example :
    extract_keywords (("ads ads ads copy copy word").data) 2 =
      [("ads").data, ("copy").data] := by decide
example :
    _generate_with_templates [] [] (("shoes").data) 1 (fun _ => 0) =
      [⟨some (("Best shoes Deals").data), some (("Free Shipping").data),
        some (("Get the best shoes deals. Fast shipping & expert support. Shop now!").data)⟩] := by
  decide
example :
    parsed_ads (("Ad 1:\nHeadline 1: Buy Now\nHeadline 2: Cheap\nDescription: Great stuff").data) =
      [⟨some (("Buy Now").data), some (("Cheap").data), some (("Great stuff").data)⟩] := by
  decide

end AdsCopy
